import Mathlib

set_option maxRecDepth 16000
set_option maxHeartbeats 1600000

/-!
Verification of the TSP ID extraction heuristics of the ReconFY PDF
processors (a shallow embedding of `pdf_processor.py` and
`pdf_processor_pypdf2.py`).

Texts are modelled as `List Char`, page coordinates and scores as `ℚ`
(the Python code computes with IEEE doubles; every constant and every
operation used here is exact, so the rational model mirrors the
arithmetic the source performs).  Python exceptions are made explicit:
fallible collaborator calls are `Except`/`Option` values and every
`try/except` of the source is translated into the corresponding
total function.
-/

/-! ## Basic text helpers (Python `str` and `re` semantics) -/

/-- A regex word character (`\w`, ASCII): letter, digit or underscore. -/
def isWordChar (c : Char) : Bool := c.isAlphanum || c = ('_')

/-- Splits a character list into the maximal runs of characters
satisfying `p`, in order of appearance.  `acc` holds the current
(reversed) run. -/
def runsByAux (p : Char → Bool) (acc : List Char) : List Char → List (List Char)
  | [] => if acc.isEmpty then [] else [acc.reverse]
  | c :: cs =>
    if p c then runsByAux p (c :: acc) cs
    else if acc.isEmpty then runsByAux p [] cs
    else acc.reverse :: runsByAux p [] cs

/-- Maximal runs of word characters (`\w+`) of a text, in order. -/
def wordRuns (s : List Char) : List (List Char) := runsByAux isWordChar [] s

/-- Maximal runs of digits of a text, in order. (Used to state the
spec-side notion of "maximal digit run" when comparing it with the
word-boundary harvesting the source actually performs.) -/
def digitRuns (s : List Char) : List (List Char) := runsByAux Char.isDigit [] s

/-- `re.findall(r'\b(\d{6,8})\b', text)`: a match of this pattern is a
maximal run of word characters that consists solely of digits and has
length 6 to 8 (the `\b` anchors forbid any adjacent word character, so a
digit run touching a letter, digit or underscore is never matched). -/
def findNumbers (text : List Char) : List (List Char) :=
  (wordRuns text).filter
    (fun r => r.all Char.isDigit && (6 ≤ r.length && r.length ≤ 8))

/-- `re.findall(r'\b(\d+)\b', text)`: maximal word-character runs that
consist solely of digits, any length. -/
def findAllNumbers (text : List Char) : List (List Char) :=
  (wordRuns text).filter (fun r => r.all Char.isDigit)

/-- Python `str.strip()`: remove leading and trailing whitespace. -/
def pyStrip (s : List Char) : List Char :=
  ((s.dropWhile Char.isWhitespace).reverse.dropWhile Char.isWhitespace).reverse

/-- Python `int(...)` on a string of ASCII digits. -/
def digitsToNat (s : List Char) : ℕ :=
  s.foldl (fun a c => 10 * a + (c.toNat - 48)) 0

/-- Does `s` begin with `pat`? -/
def leadsWith : List Char → List Char → Bool
  | [], _ => true
  | _ :: _, [] => false
  | p :: ps, c :: cs => p = c && leadsWith ps cs

/-- Python `pat in s` for strings: `pat` occurs contiguously in `s`. -/
def containsSub (pat : List Char) : List Char → Bool
  | [] => leadsWith pat []
  | c :: cs => leadsWith pat (c :: cs) || containsSub pat cs

/-! ## Candidate validation (`TspIdExtractor._is_valid_tsp_id_candidate`
and its helpers, pdf_processor.py lines 179-255) -/

def min_tsp_id_length : ℕ := 6
def max_tsp_id_length : ℕ := 8

/-- `_is_likely_date`: MMDDYY (length 6) or YYYYMMDD (length 8). -/
def is_likely_date (number : List Char) : Bool :=
  if number.length = 6 then
    let month := digitsToNat (number.take 2)
    let day := digitsToNat ((number.drop 2).take 2)
    let year := digitsToNat (number.drop 4)
    (1 ≤ month && month ≤ 12) && ((1 ≤ day && day ≤ 31) && year ≤ 99)
  else if number.length = 8 then
    let year := digitsToNat (number.take 4)
    let month := digitsToNat ((number.drop 4).take 2)
    let day := digitsToNat (number.drop 6)
    (1900 ≤ year && year ≤ 2100) && ((1 ≤ month && month ≤ 12) && (1 ≤ day && day ≤ 31))
  else false

/-- `_is_likely_zip_code`: 5-digit zip in [501, 99950] or 9-digit zip in
[50100000, 999509999]. -/
def is_likely_zip_code (number : List Char) : Bool :=
  if number.length = 5 then
    let z := digitsToNat number
    501 ≤ z && z ≤ 99950
  else if number.length = 9 then
    let z := digitsToNat number
    50100000 ≤ z && z ≤ 999509999
  else false

/-- `_is_valid_tsp_id_candidate`.  The source checks, in order: length in
[6, 8]; `int(number) < 100000` (a non-digit string makes `int` raise,
which the surrounding `except` turns into `False`, modelled by the
`all Char.isDigit` guard); the phone-number shape; the date shape; the
zip shape; and finally the length of the stripped context text. -/
def is_valid_tsp_id_candidate (number : List Char) (context_text : List Char) : Bool :=
  if ¬ (min_tsp_id_length ≤ number.length ∧ number.length ≤ max_tsp_id_length) then false
  else if ¬ number.all Char.isDigit then false
  else if digitsToNat number < 100000 then false
  else if (number.length = 10 ∨ number.length = 11) ∧
          (number.head? = some ('1') ∨ number.head? = some ('0')) then false
  else if is_likely_date number then false
  else if is_likely_zip_code number then false
  else if 50 < (pyStrip context_text).length then false
  else true

/-- `_is_valid_tsp_id_candidate` with the phone-number branch deleted and
everything else untouched (the variant claim C10 compares against). -/
def is_valid_candidate_without_phone_rule (number : List Char) (context_text : List Char) : Bool :=
  if ¬ (min_tsp_id_length ≤ number.length ∧ number.length ≤ max_tsp_id_length) then false
  else if ¬ number.all Char.isDigit then false
  else if digitsToNat number < 100000 then false
  else if is_likely_date number then false
  else if is_likely_zip_code number then false
  else if 50 < (pyStrip context_text).length then false
  else true

/-! ## Page layout data model (PyMuPDF `page.get_text("dict")`) -/

/-- A positioned text span: `{ "text": ..., "bbox": [x0, y0, x1, y1] }`.
The bounding box is kept as a plain list so that malformed boxes (which
make the Python tuple-unpacking raise) are representable. -/
structure Span where
  text : List Char
  bbox : List ℚ
deriving DecidableEq

/-- A line: `{ "spans": [...] }`. -/
structure Line where
  spans : List Span
deriving DecidableEq

/-- A block: `{ "bbox": [...], "lines": [...] }`.  Image blocks carry no
`"lines"` key, modelled by `none`. -/
structure Block where
  bbox : List ℚ
  lines : Option (List Line)
deriving DecidableEq

/-- The spans of a block, in document order (empty for a block without a
`"lines"` key — every loop in the source guards with `if "lines" in block`). -/
def blockSpans (b : Block) : List Span :=
  match b.lines with
  | none => []
  | some ls => ls.flatMap (fun l => l.spans)

/-- All spans of a page, in document (block, line, span) order. -/
def allSpans (blocks : List Block) : List Span :=
  blocks.flatMap blockSpans

/-- The block's top y-coordinate `block["bbox"][1]` (only ever read after
the source has successfully indexed the box, so the default is inert). -/
def blockY (b : Block) : ℚ := b.bbox.getD 1 0

/-! ## Position scorer (`_calculate_position_score`, lines 257-279) -/

/-- `_calculate_position_score`: unpack `x0, y0, x1, y1 = bbox` (raising
on anything but a 4-element box, which the `except` turns into the
neutral 0.5), normalize against the assumed 612×792 page and average the
two "closer to top-left" scores.  No clamping is performed. -/
def calculate_position_score (bbox : List ℚ) : ℚ :=
  match bbox with
  | [x0, y0, _, _] => ((1 - x0 / 612) + (1 - y0 / 792)) / 2
  | _ => 1 / 2

/-! ## Candidates and the selector (`_select_best_candidate`, lines 281-338) -/

/-- A harvested candidate: digit string, originating (stripped) span
text, span bounding box and the position score computed at harvest. -/
structure Candidate where
  number : List Char
  text : List Char
  bbox : List ℚ
  position_score : ℚ
deriving DecidableEq

/-- A scored candidate as built in the selector loop. -/
structure ScoredCandidate where
  number : List Char
  score : ℚ
  position_score : ℚ
deriving DecidableEq

/-- The selector's per-candidate total: 40% position score, plus the
length bonus, plus the context bonus computed from the stripped
originating text. -/
def candidate_total_score (c : Candidate) : ℚ :=
  c.position_score * (4 / 10)
  + (if c.number.length = 6 then (3 : ℚ) / 10
     else if c.number.length = 7 then 2 / 10
     else if c.number.length = 8 then 1 / 10
     else 0)
  + (if (pyStrip c.text).length ≤ 20 then (3 : ℚ) / 10
     else if (pyStrip c.text).length ≤ 30 then 2 / 10
     else 1 / 10)

def toScored (c : Candidate) : ScoredCandidate :=
  ⟨c.number, candidate_total_score c, c.position_score⟩

/-- Stable insertion into a descending-by-score sorted list: an inserted
element goes before every later element of equal score. -/
def insertDescByScore (x : ScoredCandidate) : List ScoredCandidate → List ScoredCandidate
  | [] => [x]
  | y :: ys => if x.score < y.score then y :: insertDescByScore x ys else x :: y :: ys

/-- The model of Python's `list.sort(key=..., reverse=True)`: a stable
sort placing higher scores first and preserving the original order of
equal scores, which is exactly what the (stable) Python sort does. -/
def sortByScoreDesc (l : List ScoredCandidate) : List ScoredCandidate :=
  l.foldr insertDescByScore []

/-- `_select_best_candidate`: empty list gives nothing; a single
candidate is returned directly; otherwise each candidate is scored, the
scored list is stably sorted descending and the head is returned.  (The
`except` fallback to `candidates[0]` is unreachable: mirrored by the
impossible `none` head of a sorted non-empty list.) -/
def select_best_candidate (candidates : List Candidate) : Option (List Char) :=
  match candidates with
  | [] => none
  | [c] => some c.number
  | c :: _ :: _ =>
    match (sortByScoreDesc (candidates.map toScored)).head? with
    | some best => some best.number
    | none => some c.number

/-- The earliest maximal-score element of a list (the specification-side
description of what the stable descending sort's head is). -/
def firstMaxScored : List ScoredCandidate → Option ScoredCandidate
  | [] => none
  | x :: xs =>
    match firstMaxScored xs with
    | none => some x
    | some m => if x.score < m.score then some m else some x

/-! ## Header-boundary locator (`_find_summary_boundary`, lines 82-109) -/

def summaryExact : List Char :=
  ("Summary of VIDAPAY Charges and Payments").toList

def summaryShort : List Char :=
  ("Summary of VIDAPAY").toList

/-- The per-span test of the locator loop: the exact heading is checked
first, then the partial heading — both inside the same scan. -/
def span_matches_heading (s : Span) : Bool :=
  containsSub summaryExact (pyStrip s.text) || containsSub summaryShort (pyStrip s.text)

/-- `_find_summary_boundary`: scan all spans in document order; the
first span whose stripped text contains the exact or the partial heading
determines the result `(bbox[1], bbox[3])`.  A matched span with fewer
than four box coordinates makes the indexing raise, and the surrounding
`except` returns `None`. -/
def find_summary_boundary (blocks : List Block) : Option (ℚ × ℚ) :=
  match (allSpans blocks).find? span_matches_heading with
  | some s =>
    match s.bbox with
    | _ :: y0 :: _ :: y1 :: _ => some (y0, y1)
    | _ => none
  | none => none

/-! ## Header-section extraction (`_extract_from_header_section` and
`_extract_tsp_id_candidates`, lines 111-177) -/

/-- The candidates of one span: strip the text, harvest the 6-8 digit
word-boundary runs, keep the validator-accepted ones, and record text,
box and position score. -/
def spanCandidates (s : Span) : List Candidate :=
  let text := pyStrip s.text
  ((findNumbers text).filter (fun n => is_valid_tsp_id_candidate n text)).map
    (fun n => ⟨n, text, s.bbox, calculate_position_score s.bbox⟩)

/-- `_extract_tsp_id_candidates` applied to one block. -/
def blockCandidates (b : Block) : List Candidate :=
  (blockSpans b).flatMap spanCandidates

/-- `_extract_tsp_id_candidates` over the filtered, sorted header blocks. -/
def extract_tsp_id_candidates (header_blocks : List Block) : List Candidate :=
  header_blocks.flatMap blockCandidates

/-- Stable insertion into an ascending-by-top-y sorted block list. -/
def insertAscByY (x : Block) : List Block → List Block
  | [] => [x]
  | y :: ys => if blockY y < blockY x then y :: insertAscByY x ys else x :: y :: ys

/-- The model of `header_blocks.sort(key=lambda x: x["bbox"][1])`:
stable, ascending by the block's top y-coordinate. -/
def sortBlocksByY (l : List Block) : List Block :=
  l.foldr insertAscByY []

/-- The candidate harvest of `_extract_from_header_section`: keep the
blocks that carry lines and whose top y lies strictly above the summary
boundary's top y, sort them top to bottom, and extract candidates. -/
def headerCandidates (blocks : List Block) (summary_y : ℚ) : List Candidate :=
  extract_tsp_id_candidates
    (sortBlocksByY
      ((blocks.filter (fun b => b.lines.isSome)).filter (fun b => blockY b < summary_y)))

/-- `_extract_from_header_section`: reading `block["bbox"][1]` raises for
a lines-carrying block whose box has fewer than two coordinates, and the
surrounding `except` returns `None` — the same `None` the caller sees
when no candidate survives. -/
def extract_from_header_section (blocks : List Block) (summary_boundary : ℚ × ℚ) :
    Option (List Char) :=
  if (blocks.filter (fun b => b.lines.isSome)).all (fun b => 2 ≤ b.bbox.length) then
    select_best_candidate (headerCandidates blocks summary_boundary.1)
  else none

/-! ## Fallback path and confidence (`_fallback_extraction`,
`_calculate_confidence`, lines 340-408) -/

/-- The concatenation `all_text += span["text"] + " "` over every span of
every lines-carrying block. -/
def allTextOf (blocks : List Block) : List Char :=
  (allSpans blocks).flatMap (fun s => s.text ++ [' '])

/-- The uniform result record of one extraction call: a success payload
or a failure `{"error": ...}` payload.  (Constant descriptive fields of
the source's success dict are omitted; `tspId`, `confidence`, `method`
and `page` are kept.) -/
inductive PyResult where
  | success (tspId : List Char) (confidence : ℚ) (method : String) (page : ℕ)
  | failure (error : String)
deriving DecidableEq

/-- `_calculate_confidence`: method-based base confidence, plus the
length bonus, clamped to [0, 1]. -/
def calculate_confidence (tsp_id : List Char) (method : String) : ℚ :=
  let base : ℚ :=
    if method = ("position_based") then 98 / 100
    else if method = ("fallback") then 85 / 100
    else 95 / 100
  let bonus : ℚ :=
    if tsp_id.length = 6 then 1 / 100
    else if tsp_id.length = 7 then 5 / 1000
    else if tsp_id.length = 8 then 2 / 1000
    else 0
  min 1 (max 0 (base + bonus))

/-- `_fallback_extraction`: harvest 6-8 digit runs from the whole page
text, validate each with an empty context, and return the first survivor
with the hard-coded confidence `0.85` — `_calculate_confidence` is not
consulted on this path. -/
def fallback_extraction (blocks : List Block) : PyResult :=
  match (findNumbers (allTextOf blocks)).filter
      (fun c => is_valid_tsp_id_candidate c []) with
  | tsp_id :: _ =>
    PyResult.success tsp_id (85 / 100) ("fallback_extraction") 1
  | [] => PyResult.failure ("No TSP ID found using fallback method")

/-! ## The top-level extraction call (`extract_tsp_id_from_pdf`,
lines 29-80) -/

/-- The behaviour of the PDF collaborator for one call: `fitz.open`
either raises or yields a document with a page count and a
`get_text("dict")` outcome (a block list, or an exception). -/
inductive DocBehavior where
  | openFails (msg : String)
  | opened (numPages : ℕ) (layout : Except String (List Block))

/-- The body of the `try` block of `extract_tsp_id_from_pdf`, after the
document was opened successfully. -/
def extractBody (numPages : ℕ) (layout : Except String (List Block)) : PyResult :=
  if numPages = 0 then PyResult.failure ("Empty PDF document")
  else
    match layout with
    | Except.error msg => PyResult.failure (("PDF processing error: ") ++ msg)
    | Except.ok blocks =>
      match find_summary_boundary blocks with
      | none => fallback_extraction blocks
      | some boundary =>
        match extract_from_header_section blocks boundary with
        | some tsp_id =>
          PyResult.success tsp_id (calculate_confidence tsp_id ("position_based"))
            ("position_based_extraction") 1
        | none => PyResult.failure ("No TSP ID found in header section")

/-- `extract_tsp_id_from_pdf` together with its resource bookkeeping:
the second component records whether `doc.close()` ran.  The `finally`
clause closes the document whenever `fitz.open` succeeded (`'doc' in
locals()`), on success, validation-failure and exception paths alike. -/
def extractRun (d : DocBehavior) : PyResult × Bool :=
  match d with
  | DocBehavior.openFails msg =>
    (PyResult.failure (("PDF processing error: ") ++ msg), false)
  | DocBehavior.opened numPages layout => (extractBody numPages layout, true)

/-! ## The First-Match strategy (`pdf_processor_pypdf2.py`) -/

/-- `extract_tsp_id_smart`: find all `\b(\d+)\b` runs in order and return
the first one of length exactly 6 (the inner `isdigit` re-check mirrors
the source's redundant guard). -/
def extract_tsp_id_smart (page_text : List Char) : Option (List Char) :=
  (findAllNumbers page_text).find?
    (fun num => num.length == 6 && (num.all Char.isDigit && num.length == 6))

/-- The envelope record of the alternate strategy's `main` (the constant
descriptive fields are omitted). -/
structure Pypdf2Result where
  success : Bool
  error : Option String
  tspId : Option (List Char)
  confidence : ℚ
deriving DecidableEq

/-- The collaborator behaviour for `pdf_processor_pypdf2.main`: open
raises, or yields a page count and a flat-text outcome for page 0. -/
inductive Pypdf2Doc where
  | openFails (msg : String)
  | opened (pageCount : ℕ) (pageText : Except String (List Char))

/-- The PDF-processing part of `pdf_processor_pypdf2.main` with resource
bookkeeping: the second component records whether `doc.close()` ran.
The source calls `doc.close()` only after `get_text` succeeded on a
document with pages; the zero-page branch and the exception handler
return without closing. -/
def pypdf2Run (d : Pypdf2Doc) : Pypdf2Result × Bool :=
  match d with
  | Pypdf2Doc.openFails msg =>
    (⟨false, some (("PDF processing error: ") ++ msg), none, 0⟩, false)
  | Pypdf2Doc.opened pageCount pageText =>
    if pageCount = 0 then
      (⟨false, some ("No pages found in PDF"), none, 0⟩, false)
    else
      match pageText with
      | Except.error msg =>
        (⟨false, some (("PDF processing error: ") ++ msg), none, 0⟩, false)
      | Except.ok text =>
        if text = [] then
          (⟨false, some ("No text content found in PDF"), none, 0⟩, true)
        else
          match extract_tsp_id_smart text with
          | some tsp_id => (⟨true, none, some tsp_id, 1⟩, true)
          | none =>
            (⟨false, some ("No TSP ID found with smart logic"), none, 0⟩, true)

/-- A concrete harvested candidate (poorly placed, long context). -/
def sampleCand1 : Candidate :=
  ⟨("1640820").toList, ("Some long header text around the id 1640820").toList,
    [300, 700, 400, 710], calculate_position_score [300, 700, 400, 710]⟩

/-- A concrete harvested candidate (top-left, terse context). -/
def sampleCand2 : Candidate :=
  ⟨("164082").toList, ("TSP 164082").toList,
    [10, 20, 100, 30], calculate_position_score [10, 20, 100, 30]⟩

/-- A concrete layout whose first span contains only the shorter heading
text while a later span contains the exact heading. -/
def shortFirstBlocks : List Block :=
  [⟨[0, 10, 5, 20],
    some [⟨[⟨("Summary of VIDAPAY").toList, [0, 10, 5, 20]⟩]⟩]⟩,
   ⟨[0, 100, 50, 110],
    some [⟨[⟨("Summary of VIDAPAY Charges and Payments").toList, [0, 100, 50, 110]⟩]⟩]⟩]

/-- A tall block whose top edge lies above the heading but whose only
span sits far below it. -/
def tallBlock : Block :=
  ⟨[0, 50, 600, 700], some [⟨[⟨("777777").toList, [0, 500, 100, 510]⟩]⟩]⟩

/-- The block carrying the exact heading at y = 100. -/
def headingBlock : Block :=
  ⟨[0, 100, 200, 110],
   some [⟨[⟨("Summary of VIDAPAY Charges and Payments").toList, [0, 100, 200, 110]⟩]⟩]⟩

/-- A layout in which a block straddles the heading boundary. -/
def straddleBlocks : List Block := [tallBlock, headingBlock]

/-- The candidate the straddling layout yields: its span lies below the
boundary even though its block's top edge is above it. -/
def straddleCandidate : Candidate :=
  ⟨("777777").toList, ("777777").toList, [0, 500, 100, 510],
    calculate_position_score [0, 500, 100, 510]⟩

/-- A heading-free layout containing one valid 6-digit token, driving
the extraction into the fallback path. -/
def fallbackBlocks : List Block :=
  [⟨[0, 50, 200, 60], some [⟨[⟨("Merchant 164082").toList, [0, 50, 200, 60]⟩]⟩]⟩]

/-! ## Claim C4 — the validator's rejection rules -/

/-- C4: the Candidate Validator rejects every digit string of length
outside [6, 8]; every digit string with numeric value below 100000; and
every 5-digit and 9-digit string in the documented zip ranges. -/
theorem validator_rejection_rules :
    (∀ n ctx : List Char, (n.length < 6 ∨ 8 < n.length) →
      is_valid_tsp_id_candidate n ctx = false) ∧
    (∀ n ctx : List Char, n.all Char.isDigit = true → digitsToNat n < 100000 →
      is_valid_tsp_id_candidate n ctx = false) ∧
    (∀ n ctx : List Char, n.length = 5 →
      501 ≤ digitsToNat n → digitsToNat n ≤ 99950 →
      is_valid_tsp_id_candidate n ctx = false) ∧
    (∀ n ctx : List Char, n.length = 9 →
      50100000 ≤ digitsToNat n → digitsToNat n ≤ 999509999 →
      is_valid_tsp_id_candidate n ctx = false) := by
  refine ⟨?_, ?_, ?_, ?_⟩
  · intro n ctx h
    have hlen : ¬ (min_tsp_id_length ≤ n.length ∧ n.length ≤ max_tsp_id_length) := by
      simp only [min_tsp_id_length, max_tsp_id_length]; omega
    simp [is_valid_tsp_id_candidate, hlen]
  · intro n ctx hdig hval
    by_cases hlen : min_tsp_id_length ≤ n.length ∧ n.length ≤ max_tsp_id_length
    · simp [is_valid_tsp_id_candidate, hlen, hdig, hval]
    · simp [is_valid_tsp_id_candidate, hlen]
  · intro n ctx h5 _ _
    have hlen : ¬ (min_tsp_id_length ≤ n.length ∧ n.length ≤ max_tsp_id_length) := by
      simp only [min_tsp_id_length, max_tsp_id_length]; omega
    simp [is_valid_tsp_id_candidate, hlen]
  · intro n ctx h9 _ _
    have hlen : ¬ (min_tsp_id_length ≤ n.length ∧ n.length ≤ max_tsp_id_length) := by
      simp only [min_tsp_id_length, max_tsp_id_length]; omega
    simp [is_valid_tsp_id_candidate, hlen]

/-- Witness for C4 at concrete inputs: a 5-digit zip, a 9-digit zip, a
too-small 6-digit value and a 4-digit string are all rejected. -/
theorem validator_rejection_rules_witness :
    is_valid_tsp_id_candidate (("1234").toList) [] = false ∧
    is_valid_tsp_id_candidate (("099999").toList) [] = false ∧
    is_valid_tsp_id_candidate (("90210").toList) [] = false ∧
    is_valid_tsp_id_candidate (("902101234").toList) [] = false := by
  refine ⟨?_, ?_, ?_, ?_⟩
  · exact validator_rejection_rules.1 (("1234").toList) [] (by decide)
  · exact validator_rejection_rules.2.1 (("099999").toList) [] (by decide) (by decide)
  · exact validator_rejection_rules.2.2.1 (("90210").toList) [] (by decide) (by decide) (by decide)
  · exact validator_rejection_rules.2.2.2 (("902101234").toList) [] (by decide) (by decide) (by decide)

/-! ## Claim C10 — the phone-number rule is dead code -/

/-- C10: the validator returns the same boolean as its variant with the
phone-number rule removed, on every input: the phone branch requires
length 10 or 11, which the preceding length-range check already
rejected. -/
theorem validator_phone_rule_never_fires :
    ∀ number context_text : List Char,
      is_valid_tsp_id_candidate number context_text =
        is_valid_candidate_without_phone_rule number context_text := by
  intro n ctx
  by_cases hlen : min_tsp_id_length ≤ n.length ∧ n.length ≤ max_tsp_id_length
  · have hphone : ¬ ((n.length = 10 ∨ n.length = 11) ∧
        (n.head? = some ('1') ∨ n.head? = some ('0'))) := by
      rintro ⟨h10, -⟩
      rcases hlen with ⟨-, hle⟩
      simp only [max_tsp_id_length] at hle
      omega
    simp [is_valid_tsp_id_candidate, is_valid_candidate_without_phone_rule, hphone]
  · simp [is_valid_tsp_id_candidate, is_valid_candidate_without_phone_rule, hlen]

/-! ## Helper lemmas about the selector's stable descending sort -/

theorem firstMaxScored_cons_ne_none (x : ScoredCandidate) (xs : List ScoredCandidate) :
    firstMaxScored (x :: xs) ≠ none := by
  unfold firstMaxScored
  cases firstMaxScored xs with
  | none => simp
  | some m => by_cases h : x.score < m.score <;> simp [h]

theorem head_sortByScoreDesc (l : List ScoredCandidate) :
    (sortByScoreDesc l).head? = firstMaxScored l := by
  induction l with
  | nil => rfl
  | cons x xs ih =>
    have hstep : sortByScoreDesc (x :: xs) = insertDescByScore x (sortByScoreDesc xs) := rfl
    rw [hstep]
    cases hs : sortByScoreDesc xs with
    | nil =>
      rw [hs] at ih
      simp only [List.head?] at ih
      unfold firstMaxScored
      rw [← ih]
      simp [insertDescByScore]
    | cons y ys =>
      rw [hs] at ih
      simp only [List.head?] at ih
      unfold firstMaxScored
      rw [← ih]
      by_cases hxy : x.score < y.score <;> simp [insertDescByScore, hxy]

theorem firstMaxScored_spec :
    ∀ (l : List ScoredCandidate) (m : ScoredCandidate),
      firstMaxScored l = some m →
      ∃ i, ∃ hi : i < l.length, l.get ⟨i, hi⟩ = m ∧
        (∀ j, ∀ hj : j < l.length, (l.get ⟨j, hj⟩).score ≤ m.score) ∧
        (∀ j, ∀ hj : j < l.length, (l.get ⟨j, hj⟩).score = m.score → i ≤ j) := by
  intro l
  induction l with
  | nil => intro m h; simp [firstMaxScored] at h
  | cons x xs ih =>
    intro m h
    unfold firstMaxScored at h
    cases hxs : firstMaxScored xs with
    | none =>
      rw [hxs] at h
      simp only [Option.some.injEq] at h
      subst h
      have hnil : xs = [] := by
        cases xs with
        | nil => rfl
        | cons z zs => exact absurd hxs (firstMaxScored_cons_ne_none z zs)
      subst hnil
      refine ⟨0, by simp, rfl, ?_, ?_⟩
      · intro j hj
        cases j with
        | zero => exact le_refl _
        | succ j' => simp at hj
      · intro j hj _
        exact Nat.zero_le j
    | some m' =>
      rw [hxs] at h
      have h' : (if x.score < m'.score then some m' else some x) = some m := h
      obtain ⟨i', hi', hget, hmax, hfirst⟩ := ih m' hxs
      by_cases hlt : x.score < m'.score
      · rw [if_pos hlt] at h'
        simp only [Option.some.injEq] at h'
        subst h'
        refine ⟨i' + 1, Nat.succ_lt_succ hi', hget, ?_, ?_⟩
        · intro j hj
          cases j with
          | zero => exact le_of_lt hlt
          | succ j' => exact hmax j' (Nat.lt_of_succ_lt_succ hj)
        · intro j hj heq
          cases j with
          | zero => exact absurd heq (ne_of_lt hlt)
          | succ j' => exact Nat.succ_le_succ (hfirst j' (Nat.lt_of_succ_lt_succ hj) heq)
      · rw [if_neg hlt] at h'
        simp only [Option.some.injEq] at h'
        subst h'
        refine ⟨0, Nat.succ_pos _, rfl, ?_, ?_⟩
        · intro j hj
          cases j with
          | zero => exact le_refl _
          | succ j' =>
            exact le_trans (hmax j' (Nat.lt_of_succ_lt_succ hj)) (not_lt.mp hlt)
        · intro j hj _
          exact Nat.zero_le j

theorem get_map_toScored :
    ∀ (l : List Candidate) (i : ℕ) (hi : i < (l.map toScored).length),
      (l.map toScored).get ⟨i, hi⟩ = toScored (l.get ⟨i, by simpa using hi⟩) := by
  intro l
  induction l with
  | nil => intro i hi; simp at hi
  | cons a as ih =>
    intro i hi
    cases i with
    | zero => rfl
    | succ i' => exact ih i' (by simpa using hi)

/-! ## Claim C1 — the Candidate Selector -/

/-- C1: on a non-empty candidate list, a singleton's digit string is
returned directly; with several candidates, each is scored as
`0.4 × position_score + length_bonus + context_bonus` and the digit
string of the earliest maximal-score candidate is returned (stable
descending sort, head). -/
theorem selector_single_and_argmax (cs : List Candidate) (hne : cs ≠ []) :
    (∀ c, cs = [c] → select_best_candidate cs = some c.number) ∧
    (∀ c : Candidate, candidate_total_score c =
        c.position_score * (4 / 10)
        + (if c.number.length = 6 then (3 : ℚ) / 10
           else if c.number.length = 7 then 2 / 10
           else if c.number.length = 8 then 1 / 10
           else 0)
        + (if (pyStrip c.text).length ≤ 20 then (3 : ℚ) / 10
           else if (pyStrip c.text).length ≤ 30 then 2 / 10
           else 1 / 10)) ∧
    (2 ≤ cs.length →
      ∃ i, ∃ hi : i < cs.length,
        select_best_candidate cs = some ((cs.get ⟨i, hi⟩).number) ∧
        (∀ j, ∀ hj : j < cs.length,
          candidate_total_score (cs.get ⟨j, hj⟩) ≤
            candidate_total_score (cs.get ⟨i, hi⟩)) ∧
        (∀ j, ∀ hj : j < cs.length,
          candidate_total_score (cs.get ⟨j, hj⟩) =
            candidate_total_score (cs.get ⟨i, hi⟩) → i ≤ j)) := by
  refine ⟨?_, ?_, ?_⟩
  · intro c h; subst h; rfl
  · intro c; rfl
  · intro h2
    match cs, hne with
    | [c], _ => simp at h2
    | c1 :: c2 :: rest, _ =>
      cases hfm : firstMaxScored ((c1 :: c2 :: rest).map toScored) with
      | none => exact absurd hfm (firstMaxScored_cons_ne_none _ _)
      | some m =>
        obtain ⟨i, hi, hget, hmax, hfirst⟩ :=
          firstMaxScored_spec ((c1 :: c2 :: rest).map toScored) m hfm
        have hlen : ((c1 :: c2 :: rest).map toScored).length = (c1 :: c2 :: rest).length :=
          List.length_map _ _
        have hi2 : i < (c1 :: c2 :: rest).length := by rw [← hlen]; exact hi
        have hsel : select_best_candidate (c1 :: c2 :: rest) = some m.number := by
          show (match (sortByScoreDesc ((c1 :: c2 :: rest).map toScored)).head? with
            | some best => some best.number
            | none => some c1.number) = some m.number
          rw [head_sortByScoreDesc, hfm]
        have hgeti : toScored ((c1 :: c2 :: rest).get ⟨i, hi2⟩) = m := by
          rw [← hget, get_map_toScored]
        refine ⟨i, hi2, ?_, ?_, ?_⟩
        · rw [hsel, ← hgeti]; rfl
        · intro j hj
          have hj' : j < ((c1 :: c2 :: rest).map toScored).length := by rw [hlen]; exact hj
          have hle := hmax j hj'
          rw [get_map_toScored] at hle
          have hms : m.score = candidate_total_score ((c1 :: c2 :: rest).get ⟨i, hi2⟩) := by
            rw [← hgeti]; rfl
          rw [hms] at hle
          exact hle
        · intro j hj heq
          have hj' : j < ((c1 :: c2 :: rest).map toScored).length := by rw [hlen]; exact hj
          refine hfirst j hj' ?_
          have hms : m.score = candidate_total_score ((c1 :: c2 :: rest).get ⟨i, hi2⟩) := by
            rw [← hgeti]; rfl
          rw [get_map_toScored, hms]
          exact heq

/-- Witness for C1: a concrete two-candidate list in which the second,
better-scoring candidate is selected. -/
theorem selector_single_and_argmax_witness :
    select_best_candidate [sampleCand1, sampleCand2] = some (("164082").toList) := by
  obtain ⟨-, -, h2⟩ :=
    selector_single_and_argmax [sampleCand1, sampleCand2] (by decide)
  obtain ⟨i, hi, hsel, hmax, hfirst⟩ := h2 (by decide)
  have hi' : i < 2 := by simpa using hi
  cases i with
  | zero =>
    exfalso
    have h1 := hmax 1 (by simp)
    have h1' : candidate_total_score sampleCand2 ≤ candidate_total_score sampleCand1 := h1
    exact absurd h1' (by with_unfolding_all decide)
  | succ i' =>
    cases i' with
    | zero => exact hsel
    | succ i'' => exact absurd hi' (by omega)

/-! ## Claim C7 — the Position Scorer -/

/-- C7 counterexample: a bounding box outside the assumed 612×792 page
produces the unclamped score −1, which does not lie in [0, 1]. -/
theorem position_scorer_out_of_range_counterexample :
    calculate_position_score [1224, 1584, 1300, 1600] = -1 ∧ ¬ ((0 : ℚ) ≤ -1) := by
  refine ⟨by with_unfolding_all decide, by norm_num⟩

/-- C7 (amended): the scorer returns the average of `1 − x0/612` and
`1 − y0/792`; that value lies in [0, 1] whenever the box's top-left
corner lies on the assumed 612×792 page (no clamping is performed, so
out-of-page boxes can leave [0, 1]); a box that cannot be destructured
into four coordinates yields the neutral 0.5. -/
theorem position_scorer_formula_bounds_default :
    (∀ x0 y0 x1 y1 : ℚ,
      calculate_position_score [x0, y0, x1, y1] = ((1 - x0 / 612) + (1 - y0 / 792)) / 2) ∧
    (∀ x0 y0 x1 y1 : ℚ, 0 ≤ x0 → x0 ≤ 612 → 0 ≤ y0 → y0 ≤ 792 →
      0 ≤ calculate_position_score [x0, y0, x1, y1] ∧
        calculate_position_score [x0, y0, x1, y1] ≤ 1) ∧
    (∀ bbox : List ℚ, bbox.length ≠ 4 → calculate_position_score bbox = 1 / 2) := by
  refine ⟨fun x0 y0 x1 y1 => rfl, ?_, ?_⟩
  · intro x0 y0 x1 y1 hx0 hx612 hy0 hy792
    have hform : calculate_position_score [x0, y0, x1, y1] =
        ((1 - x0 / 612) + (1 - y0 / 792)) / 2 := rfl
    have hxle : x0 / 612 ≤ 1 := by
      rw [div_le_one (by norm_num : (0 : ℚ) < 612)]; exact hx612
    have hxge : 0 ≤ x0 / 612 := div_nonneg hx0 (by norm_num)
    have hyle : y0 / 792 ≤ 1 := by
      rw [div_le_one (by norm_num : (0 : ℚ) < 792)]; exact hy792
    have hyge : 0 ≤ y0 / 792 := div_nonneg hy0 (by norm_num)
    rw [hform]
    constructor
    · linarith
    · linarith
  · intro bbox hlen
    cases bbox with
    | nil => rfl
    | cons a l1 =>
      cases l1 with
      | nil => rfl
      | cons b l2 =>
        cases l2 with
        | nil => rfl
        | cons c l3 =>
          cases l3 with
          | nil => rfl
          | cons d l4 =>
            cases l4 with
            | nil => exact absurd rfl hlen
            | cons e l5 => rfl

/-- Witness for C7 at concrete inputs: an in-page box and a malformed
3-element box. -/
theorem position_scorer_formula_bounds_default_witness :
    calculate_position_score [10, 20, 100, 30] = ((1 - (10 : ℚ) / 612) + (1 - 20 / 792)) / 2 ∧
    (0 ≤ calculate_position_score [10, 20, 100, 30] ∧
      calculate_position_score [10, 20, 100, 30] ≤ 1) ∧
    calculate_position_score [1, 2, 3] = 1 / 2 :=
  ⟨position_scorer_formula_bounds_default.1 10 20 100 30,
   position_scorer_formula_bounds_default.2.1 10 20 100 30
     (by norm_num) (by norm_num) (by norm_num) (by norm_num),
   position_scorer_formula_bounds_default.2.2 [1, 2, 3] (by decide)⟩

/-! ## Helper lemmas about substring containment and `find?` -/

theorem leadsWith_append_left :
    ∀ (x y t : List Char), leadsWith (x ++ y) t = true → leadsWith x t = true := by
  intro x
  induction x with
  | nil => intro y t _; rfl
  | cons a as ih =>
    intro y t h
    cases t with
    | nil => simp [leadsWith] at h
    | cons c cs =>
      simp only [List.cons_append, leadsWith, Bool.and_eq_true] at h ⊢
      exact ⟨h.1, ih y cs h.2⟩

theorem containsSub_append_left :
    ∀ (x y t : List Char), containsSub (x ++ y) t = true → containsSub x t = true := by
  intro x y t
  induction t with
  | nil =>
    intro h
    cases x with
    | nil => rfl
    | cons a as => simp [containsSub, leadsWith] at h
  | cons c cs ih =>
    intro h
    simp only [containsSub, Bool.or_eq_true] at h ⊢
    cases h with
    | inl h => exact Or.inl (leadsWith_append_left x y (c :: cs) h)
    | inr h => exact Or.inr (ih h)

theorem summaryExact_eq_append :
    summaryExact = summaryShort ++ (" Charges and Payments").toList := by decide

theorem span_matches_heading_eq (s : Span) :
    span_matches_heading s = containsSub summaryShort (pyStrip s.text) := by
  unfold span_matches_heading
  cases hE : containsSub summaryExact (pyStrip s.text) with
  | false => simp
  | true =>
    have hS : containsSub summaryShort (pyStrip s.text) = true := by
      have happ := containsSub_append_left summaryShort
        ((" Charges and Payments").toList) (pyStrip s.text)
      rw [← summaryExact_eq_append] at happ
      exact happ hE
    simp [hS]

theorem find?_congr_mem {α : Type} (p q : α → Bool) :
    ∀ l : List α, (∀ a, a ∈ l → p a = q a) → l.find? p = l.find? q := by
  intro l
  induction l with
  | nil => intro _; rfl
  | cons x xs ih =>
    intro h
    have hx := h x (by simp)
    cases hq : q x with
    | true =>
      rw [List.find?_cons_of_pos _ (by rw [hx]; exact hq),
        List.find?_cons_of_pos _ hq]
    | false =>
      have hq' : ¬ q x = true := by rw [hq]; simp
      have hp' : ¬ p x = true := by rw [hx, hq]; simp
      rw [List.find?_cons_of_neg _ hp', List.find?_cons_of_neg _ hq']
      exact ih (fun a ha => h a (by simp [ha]))

theorem exists_four_of_length_ge (l : List ℚ) (h : 4 ≤ l.length) :
    ∃ a b c d rest, l = a :: b :: c :: d :: rest := by
  cases l with
  | nil => simp at h
  | cons a l1 =>
    cases l1 with
    | nil => simp at h
    | cons b l2 =>
      cases l2 with
      | nil => simp at h
      | cons c l3 =>
        cases l3 with
        | nil => simp at h
        | cons d rest => exact ⟨a, b, c, d, rest, rfl⟩

/-! ## Claim C2 — the Header-Boundary Locator -/

/-- C2 counterexample: in `shortFirstBlocks` a span contains the exact
heading, and the first exactly-matching span has box y-coordinates
(100, 110); yet the locator returns (10, 20), taken from the earlier
span that matches only partially — the two headings are checked in one
single pass, not in two. -/
theorem boundary_locator_counterexample :
    ((allSpans shortFirstBlocks).find?
        (fun s => containsSub summaryExact (pyStrip s.text))).map
      (fun s => (s.bbox.getD 1 0, s.bbox.getD 3 0)) = some ((100 : ℚ), (110 : ℚ)) ∧
    find_summary_boundary shortFirstBlocks = some ((10 : ℚ), (20 : ℚ)) ∧
    ¬ (((10 : ℚ), (20 : ℚ)) = ((100 : ℚ), (110 : ℚ))) := by
  refine ⟨by with_unfolding_all decide, by with_unfolding_all decide,
    by with_unfolding_all decide⟩

/-- C2 (amended): the locator performs one single pass; it returns the
box y-pair of the first span in document order whose trimmed text
contains the partial heading `"Summary of VIDAPAY"` (a span containing
the exact heading also contains the partial one), so an earlier
partial-only span wins over a later exactly-matching span. -/
theorem boundary_locator_single_pass (blocks : List Block)
    (hwf : ∀ s ∈ allSpans blocks, 4 ≤ s.bbox.length) :
    find_summary_boundary blocks =
      ((allSpans blocks).find?
          (fun s => containsSub summaryShort (pyStrip s.text))).map
        (fun s => (s.bbox.getD 1 0, s.bbox.getD 3 0)) := by
  unfold find_summary_boundary
  rw [find?_congr_mem span_matches_heading
      (fun s => containsSub summaryShort (pyStrip s.text)) (allSpans blocks)
      (fun a _ => span_matches_heading_eq a)]
  cases hf : (allSpans blocks).find? (fun s => containsSub summaryShort (pyStrip s.text)) with
  | none => rfl
  | some s =>
    have hmem : s ∈ allSpans blocks := List.mem_of_find?_eq_some hf
    have h4 := hwf s hmem
    obtain ⟨stext, sbbox⟩ := s
    obtain ⟨a, b, c, d, rest, hb⟩ := exists_four_of_length_ge sbbox h4
    subst hb
    rfl

/-- Witness for C2 at a concrete well-formed layout. -/
theorem boundary_locator_single_pass_witness :
    (∀ s ∈ allSpans shortFirstBlocks, 4 ≤ s.bbox.length) ∧
    find_summary_boundary shortFirstBlocks =
      ((allSpans shortFirstBlocks).find?
          (fun s => containsSub summaryShort (pyStrip s.text))).map
        (fun s => (s.bbox.getD 1 0, s.bbox.getD 3 0)) :=
  ⟨by decide, boundary_locator_single_pass shortFirstBlocks (by decide)⟩

/-! ## Helper lemmas about the block sort -/

theorem insertAscByY_perm (x : Block) :
    ∀ l : List Block, (insertAscByY x l).Perm (x :: l) := by
  intro l
  induction l with
  | nil => exact List.Perm.refl _
  | cons y ys ih =>
    unfold insertAscByY
    by_cases h : blockY y < blockY x
    · rw [if_pos h]
      exact (ih.cons y).trans (List.Perm.swap x y ys)
    · rw [if_neg h]

theorem sortBlocksByY_perm : ∀ l : List Block, (sortBlocksByY l).Perm l := by
  intro l
  induction l with
  | nil => exact List.Perm.refl _
  | cons a as ih =>
    have hstep : sortBlocksByY (a :: as) = insertAscByY a (sortBlocksByY as) := rfl
    rw [hstep]
    exact (insertAscByY_perm a (sortBlocksByY as)).trans (ih.cons a)

/-! ## Claim C3 — the header-region filter is block-level -/

/-- C3 counterexample: in `straddleBlocks` the boundary is found at
top y = 100, and the harvest yields exactly one candidate whose span has
top y = 500 — a span lying below the boundary's top edge is considered,
because only the block's (not the span's) top y is filtered. -/
theorem block_filter_counterexample :
    find_summary_boundary straddleBlocks = some ((100 : ℚ), (110 : ℚ)) ∧
    (headerCandidates straddleBlocks 100).map (fun c => c.bbox.getD 1 0) = [(500 : ℚ)] ∧
    ¬ ((500 : ℚ) < 100) := by
  refine ⟨by with_unfolding_all decide, by with_unfolding_all decide,
    by with_unfolding_all decide⟩

/-- C3 (amended): every harvested candidate originates from a
lines-carrying block whose bounding-box top y lies strictly above the
boundary's top y; the filter is block-level, so spans of such a block
may themselves lie below the boundary. -/
theorem header_filter_is_block_level (blocks : List Block) (summary_y : ℚ)
    (c : Candidate) (hc : c ∈ headerCandidates blocks summary_y) :
    ∃ b, b ∈ blocks ∧ b.lines.isSome = true ∧ blockY b < summary_y ∧
      c ∈ blockCandidates b := by
  unfold headerCandidates extract_tsp_id_candidates at hc
  rw [List.mem_flatMap] at hc
  obtain ⟨b, hb, hcb⟩ := hc
  have hperm := sortBlocksByY_perm
    ((blocks.filter (fun b => b.lines.isSome)).filter
      (fun b => decide (blockY b < summary_y)))
  have hb' := hperm.mem_iff.mp hb
  rw [List.mem_filter] at hb'
  obtain ⟨hb1, hb2⟩ := hb'
  rw [List.mem_filter] at hb1
  obtain ⟨hbmem, hblines⟩ := hb1
  exact ⟨b, hbmem, hblines, of_decide_eq_true hb2, hcb⟩

/-- Witness for C3 at the straddling layout. -/
theorem header_filter_is_block_level_witness :
    straddleCandidate ∈ headerCandidates straddleBlocks 100 ∧
    ∃ b, b ∈ straddleBlocks ∧ b.lines.isSome = true ∧ blockY b < 100 ∧
      straddleCandidate ∈ blockCandidates b :=
  ⟨by with_unfolding_all decide,
   header_filter_is_block_level straddleBlocks 100 straddleCandidate
     (by with_unfolding_all decide)⟩

/-! ## Claim C5 — fallback confidence -/

/-- C5 counterexample: a heading-free layout with a valid 6-digit token
is extracted through the fallback path with confidence exactly 0.85; the
claimed value 0.85 + 0.01 (clamped) differs. -/
theorem fallback_confidence_counterexample :
    (extractRun (DocBehavior.opened 1 (Except.ok fallbackBlocks))).1 =
      PyResult.success (("164082").toList) (85 / 100) ("fallback_extraction") 1 ∧
    ¬ ((85 : ℚ) / 100 = min 1 (max 0 (85 / 100 + 1 / 100))) := by
  refine ⟨by with_unfolding_all decide, by with_unfolding_all decide⟩

/-- C5 (amended): every successful fallback extraction carries the
constant confidence 0.85; the length-based bonus of
`_calculate_confidence` is never applied on the fallback path. -/
theorem fallback_confidence_constant :
    (∀ (blocks : List Block) (t : List Char) (c : ℚ) (m : String) (p : ℕ),
      fallback_extraction blocks = PyResult.success t c m p → c = 85 / 100) ∧
    (∀ (n : ℕ) (blocks : List Block), n ≠ 0 → find_summary_boundary blocks = none →
      (extractRun (DocBehavior.opened n (Except.ok blocks))).1 =
        fallback_extraction blocks) := by
  constructor
  · intro blocks t c m p h
    unfold fallback_extraction at h
    cases hl : (findNumbers (allTextOf blocks)).filter
        (fun c => is_valid_tsp_id_candidate c []) with
    | nil =>
      rw [hl] at h
      have h' : PyResult.failure ("No TSP ID found using fallback method") =
          PyResult.success t c m p := h
      simp at h'
    | cons a as =>
      rw [hl] at h
      have h' : PyResult.success a (85 / 100) ("fallback_extraction") 1 =
          PyResult.success t c m p := h
      injection h' with h1 h2 h3 h4
      exact h2.symm
  · intro n blocks hn hb
    show extractBody n (Except.ok blocks) = fallback_extraction blocks
    unfold extractBody
    rw [if_neg hn]
    show (match find_summary_boundary blocks with
      | none => fallback_extraction blocks
      | some boundary =>
        match extract_from_header_section blocks boundary with
        | some tsp_id =>
          PyResult.success tsp_id (calculate_confidence tsp_id ("position_based"))
            ("position_based_extraction") 1
        | none => PyResult.failure ("No TSP ID found in header section")) =
      fallback_extraction blocks
    rw [hb]

/-- Witness for C5 at the heading-free layout. -/
theorem fallback_confidence_constant_witness :
    (extractRun (DocBehavior.opened 1 (Except.ok fallbackBlocks))).1 =
      fallback_extraction fallbackBlocks ∧
    (85 : ℚ) / 100 = 85 / 100 :=
  ⟨fallback_confidence_constant.2 1 fallbackBlocks (by decide)
     (by with_unfolding_all decide),
   fallback_confidence_constant.1 fallbackBlocks (("164082").toList) (85 / 100)
     ("fallback_extraction") 1 (by with_unfolding_all decide)⟩

/-! ## Claim C9 — uniform error results -/

/-- C9: one extraction call always produces either a success payload or
a `{"error": string}` failure payload; an `open` failure, a zero-page
document, a raising `get_text` and a blockless page all yield failure
records, never an exception. -/
theorem extraction_errors_are_uniform :
    (∀ d : DocBehavior,
      (∃ t c m p, (extractRun d).1 = PyResult.success t c m p) ∨
      (∃ s, (extractRun d).1 = PyResult.failure s)) ∧
    (∀ msg, (extractRun (DocBehavior.openFails msg)).1 =
      PyResult.failure (("PDF processing error: ") ++ msg)) ∧
    (∀ layout, (extractRun (DocBehavior.opened 0 layout)).1 =
      PyResult.failure ("Empty PDF document")) ∧
    (∀ n msg, (extractRun (DocBehavior.opened (n + 1) (Except.error msg))).1 =
      PyResult.failure (("PDF processing error: ") ++ msg)) ∧
    (∀ n, (extractRun (DocBehavior.opened (n + 1) (Except.ok []))).1 =
      PyResult.failure ("No TSP ID found using fallback method")) := by
  refine ⟨?_, ?_, ?_, ?_, ?_⟩
  · intro d
    cases h : (extractRun d).1 with
    | success t c m p => exact Or.inl ⟨t, c, m, p, rfl⟩
    | failure s => exact Or.inr ⟨s, rfl⟩
  · intro msg; rfl
  · intro layout
    show extractBody 0 layout = _
    unfold extractBody
    rw [if_pos rfl]
  · intro n msg
    show extractBody (n + 1) (Except.error msg) = _
    unfold extractBody
    rw [if_neg (Nat.succ_ne_zero n)]
  · intro n
    show extractBody (n + 1) (Except.ok []) = _
    unfold extractBody
    rw [if_neg (Nat.succ_ne_zero n)]
    rfl

/-! ## Claim C6 — the First-Match Heuristic Extractor -/

theorem extract_tsp_id_smart_eq_first_six (text : List Char) :
    extract_tsp_id_smart text = (findAllNumbers text).find? (fun r => r.length == 6) := by
  unfold extract_tsp_id_smart
  apply find?_congr_mem
  intro r hr
  unfold findAllNumbers at hr
  rw [List.mem_filter] at hr
  obtain ⟨-, hdig⟩ := hr
  rw [hdig]
  cases h6 : (r.length == 6) <;> simp

/-- C6 counterexample: on `"x123456 654321"` the first maximal digit run
of length 6 is `"123456"`, but the extractor — whose `\b` anchors skip
digit runs adjacent to word characters — returns `"654321"`. -/
theorem first_match_maximal_run_counterexample :
    (digitRuns (("x123456 654321").toList)).find? (fun r => r.length == 6) =
      some (("123456").toList) ∧
    extract_tsp_id_smart (("x123456 654321").toList) = some (("654321").toList) ∧
    ¬ (some (("123456").toList) = some (("654321").toList)) := by
  refine ⟨by decide, by decide, by decide⟩

/-- C6 (amended): the extractor harvests, in order of appearance, the
maximal word-character runs consisting solely of digits (digit runs not
adjacent to letters, digits or underscores) and returns the first run of
length exactly 6, or nothing; on the documented example text it returns
`"164082"`. -/
theorem first_match_first_clean_six_run :
    (∀ text : List Char,
      extract_tsp_id_smart text = (findAllNumbers text).find? (fun r => r.length == 6)) ∧
    extract_tsp_id_smart (("order 2077 dated 06/02/2025 ref 164082").toList) =
      some (("164082").toList) := by
  exact ⟨extract_tsp_id_smart_eq_first_six, by decide⟩

/-! ## Claim C8 — document-handle release -/

/-- C8: `extract_tsp_id_from_pdf` runs `doc.close()` on every path on
which the document was opened (its `finally` clause); but the
First-Match CLI of `pdf_processor_pypdf2.py` returns the zero-page
failure record without ever closing the document it opened. -/
theorem handle_release_evaluation :
    (∀ (n : ℕ) (layout : Except String (List Block)),
      (extractRun (DocBehavior.opened n layout)).2 = true) ∧
    (pypdf2Run (Pypdf2Doc.opened 0 (Except.ok []))).2 = false ∧
    (pypdf2Run (Pypdf2Doc.opened 0 (Except.ok []))).1 =
      ⟨false, some ("No pages found in PDF"), none, 0⟩ := by
  refine ⟨fun n layout => rfl, rfl, rfl⟩
